import Mathlib

/-!
Verification of the Morocco Tech Job Market Tracker search, deduplication
and forecasting core.

The search operations live in PostgreSQL functions
(`search_jobs_semantic`, `search_jobs_hybrid`, `find_similar_jobs`, in
`fix_supabase_rls_simple.sql` and the hybrid-search setup script).  We embed
them shallowly: the `jobs` table becomes a list of `Job` records, the
pgvector cosine-distance operator becomes an explicit parameter
`dist : Vec → Vec → ℚ` (all structural properties of the queries hold for an
arbitrary distance; where a property needs a mathematical fact about cosine
distance — nonnegativity — it is taken as a hypothesis), SQL `WHERE` becomes
`List.filter`, `ORDER BY j.embedding <=> q` (distance ascending) becomes a
sort by similarity `1 - dist` descending (the same comparison; SQL fixes no
order among equal keys, and the sort realizes one such order), and `LIMIT`
becomes `List.take`.
-/

/-- Embedding vectors (`vector(384)` in the SQL); exact rationals stand in
for the floating-point components. -/
abbrev Vec := List ℚ

/-- A row of the `public.jobs` table (`supabase_setup.sql`), with the
`embedding vector(384)` column added by the vector-search setup script.
`date_posted` is nullable; `extracted_skills` is a JSONB array of strings;
`embedding` is `NULL` until generated. -/
structure Job where
  id : Int
  title : String
  company : String
  location : String
  searched_city : String
  searched_role : String
  job_url : String
  date_posted : Option String
  extracted_skills : List String
  embedding : Option Vec
deriving Repr, DecidableEq

/-- The rows produced by the `SELECT` of the search functions: the job
together with its computed `similarity = 1 - (j.embedding <=> q)`. -/
abbrev SimRow := Job × ℚ

/-- Clause `FROM public.jobs j WHERE j.embedding IS NOT NULL`, with
`similarity = 1 - dist(embedding, q)` computed for each surviving row. -/
def simRows (dist : Vec → Vec → ℚ) (q : Vec) (jobs : List Job) : List SimRow :=
  jobs.filterMap (fun j => j.embedding.map (fun e => (j, 1 - dist e q)))

/-- Clause `ORDER BY j.embedding <=> query_embedding` sorts by distance ascending,
i.e. by similarity `1 - dist` descending: `a` may precede `b` iff
`b.similarity ≤ a.similarity`. -/
def simDesc (a b : SimRow) : Prop := b.2 ≤ a.2

instance : DecidableRel simDesc := fun a b =>
  inferInstanceAs (Decidable (b.2 ≤ a.2))

instance : IsTotal SimRow simDesc := ⟨fun a b => le_total b.2 a.2⟩

instance : IsTrans SimRow simDesc := ⟨fun _ _ _ h1 h2 => le_trans h2 h1⟩

/-- Sort result rows by similarity descending (distance ascending). -/
def sortBySim (l : List SimRow) : List SimRow := l.insertionSort simDesc

/-- Function `search_jobs_semantic(query_embedding, match_threshold, match_count)`
(`fix_supabase_rls_simple.sql`): rows with a non-null embedding whose
similarity is strictly above `match_threshold`, ordered by distance
ascending, limited to `match_count`. -/
def search_jobs_semantic (dist : Vec → Vec → ℚ) (jobs : List Job)
    (query_embedding : Vec) (match_threshold : ℚ) (match_count : ℕ) :
    List SimRow :=
  (sortBySim ((simRows dist query_embedding jobs).filter
      (fun r => decide (match_threshold < r.2)))).take match_count

/-- Predicate `segStarts pat s`: `pat` occurs at the head of `s`. -/
def segStarts : List Char → List Char → Bool
  | [], _ => true
  | _ :: _, [] => false
  | p :: ps, c :: cs => p == c && segStarts ps cs

/-- Predicate `segOccurs pat s`: `pat` occurs contiguously somewhere in `s`. -/
def segOccurs (pat : List Char) : List Char → Bool
  | [] => pat.isEmpty
  | c :: cs => segStarts pat (c :: cs) || segOccurs pat cs

/-- SQL `LOWER(s)`, modelled as characterwise lowercasing (what
`String.toLower` does), written over the underlying character list so that
it computes by kernel reduction. -/
def lowerStr (s : String) : String := String.mk (s.data.map Char.toLower)

/-- Test `LOWER(s) LIKE '%' || LOWER(pat) || '%'` for a wildcard-free `pat`:
case-insensitive contiguous-substring occurrence. -/
def likeContains (s pat : String) : Bool :=
  segOccurs (lowerStr pat).data (lowerStr s).data

/-- Test `(filter_city IS NULL OR LOWER(j.searched_city) = LOWER(filter_city))`. -/
def cityMatches (filter_city : Option String) (j : Job) : Bool :=
  match filter_city with
  | none => true
  | some c => lowerStr j.searched_city == lowerStr c

/-- Test `(filter_role IS NULL OR LOWER(j.searched_role) LIKE '%'||LOWER(filter_role)||'%'
OR LOWER(j.title) LIKE '%'||LOWER(filter_role)||'%')`. -/
def roleMatches (filter_role : Option String) (j : Job) : Bool :=
  match filter_role with
  | none => true
  | some r => likeContains j.searched_role r || likeContains j.title r

/-- Test `(filter_skill IS NULL OR j.extracted_skills @> jsonb_build_array(filter_skill))`:
JSONB array containment of a one-element array is exact (case-sensitive)
membership of the string in the array. -/
def skillMatches (filter_skill : Option String) (j : Job) : Bool :=
  match filter_skill with
  | none => true
  | some s => j.extracted_skills.contains s

/-- Function `search_jobs_hybrid(query_embedding, match_threshold, match_count,
filter_city, filter_role, filter_skill)` (hybrid-search setup script): the
semantic `WHERE` clause conjoined with the three optional filters, same
ordering and limit. -/
def search_jobs_hybrid (dist : Vec → Vec → ℚ) (jobs : List Job)
    (query_embedding : Vec) (match_threshold : ℚ) (match_count : ℕ)
    (filter_city filter_role filter_skill : Option String) : List SimRow :=
  (sortBySim ((simRows dist query_embedding jobs).filter
      (fun r => decide (match_threshold < r.2) && cityMatches filter_city r.1
        && roleMatches filter_role r.1
        && skillMatches filter_skill r.1))).take match_count

/-- Function `find_similar_jobs(source_job_id, match_threshold, match_count)`
(hybrid-search setup script): look up the source job's embedding
(`WHERE id = source_job_id AND embedding IS NOT NULL`; `id` is the primary
key, so `find?` models the single-row `SELECT INTO`); if none, return empty;
otherwise rank all other jobs with a non-null embedding by similarity to it,
excluding the source id, strictly above the threshold, limited. -/
def find_similar_jobs (dist : Vec → Vec → ℚ) (jobs : List Job)
    (source_job_id : Int) (match_threshold : ℚ) (match_count : ℕ) :
    List SimRow :=
  match (jobs.find? (fun j => j.id == source_job_id && j.embedding.isSome)).bind
      (fun j => j.embedding) with
  | none => []
  | some source_embedding =>
      (sortBySim ((simRows dist source_embedding jobs).filter
          (fun r => r.1.id != source_job_id
            && decide (match_threshold < r.2)))).take match_count

/-- Componentwise dot product (missing components are zero). -/
def dotVec : Vec → Vec → ℚ
  | [], _ => 0
  | _, [] => 0
  | x :: xs, y :: ys => x * y + dotVec xs ys

/-- Pgvector's cosine distance `a <=> b` is `1 - ⟪a,b⟫/(‖a‖·‖b‖)`; on
unit-norm vectors it is `1 - ⟪a,b⟫`.  Concrete instances below use only
unit-norm rational vectors, for which this is the exact cosine distance. -/
def unitCosDist (a b : Vec) : ℚ := 1 - dotVec a b

/-- The identity key of constraint `jobs_title_company_city_unique`
(`supabase_setup.sql`): `UNIQUE (title, company, searched_city)`. -/
def identKey (j : Job) : String × String × String :=
  (j.title, j.company, j.searched_city)

/-- Modelled from the spec: the import script is not in the sources; the
schema adds `jobs_title_company_city_unique` with the comment "This allows
the import script to use ON CONFLICT", and the spec says "later sync
operations upsert rather than duplicate".  `ON CONFLICT ... DO UPDATE`:
if a row with the incoming identity key exists, its fields are refreshed in
place (the stored primary key is kept); otherwise the record is inserted. -/
def upsert (jobs : List Job) (incoming : Job) : List Job :=
  if jobs.any (fun j => identKey j == identKey incoming) then
    jobs.map (fun j =>
      if identKey j == identKey incoming then { incoming with id := j.id } else j)
  else jobs ++ [incoming]

/-- No two stored rows share an identity key — what the unique constraint
enforces. -/
def NoDupKeys (jobs : List Job) : Prop := (jobs.map identKey).Nodup

/-- Modelled from the spec: the trend forecaster is not in the sources.
Ordinary-least-squares slope of counts versus month index 0,1,…:
`slope = (n·Σxy − Σx·Σy) / (n·Σx² − (Σx)²)`. -/
def olsSlope (ys : List ℚ) : ℚ :=
  let n : ℚ := ys.length
  let xs : List ℚ := (List.range ys.length).map (fun i => (i : ℚ))
  let sx := xs.sum
  let sy := ys.sum
  let sxy := ((xs.zip ys).map (fun p => p.1 * p.2)).sum
  let sxx := (xs.map (fun x => x * x)).sum
  (n * sxy - sx * sy) / (n * sxx - sx * sx)

/-- The five trend classes of the forecaster. -/
inductive TrendClass
  | growingStrong
  | growingModerate
  | stable
  | decliningModerate
  | decliningStrong
deriving Repr, DecidableEq

/-- Modelled from the spec: slope > 5 → growing/strong; 1 < slope ≤ 5 →
growing/moderate; −1 ≤ slope ≤ 1 → stable; −5 ≤ slope < −1 →
declining/moderate; slope < −5 → declining/strong. -/
def classifySlope (s : ℚ) : TrendClass :=
  if 5 < s then .growingStrong
  else if 1 < s then .growingModerate
  else if -1 ≤ s then .stable
  else if -5 ≤ s then .decliningModerate
  else .decliningStrong

/-- A per-skill forecast outcome. -/
inductive ForecastResult
  | insufficientData
  | trend (slope : ℚ) (cls : TrendClass)
deriving Repr, DecidableEq

/-- Modelled from the spec: a monthly series with fewer than 2 months yields
an explicit "insufficient data" result; otherwise the OLS slope is computed
and classified. -/
def forecastSkill (ys : List ℚ) : ForecastResult :=
  if ys.length < 2 then .insufficientData
  else .trend (olsSlope ys) (classifySlope (olsSlope ys))

/-! Concrete fixtures used by witnesses and counterexamples.  All embedding
vectors below are unit-norm rationals, so `unitCosDist` is their exact
cosine distance. -/

/-- Skill string used by the fixtures. -/
def pySkill : String := "Python"

/-- Lower-case variant of the skill string. -/
def pySkillLower : String := "python"

/-- City filter written in upper case. -/
def cityUpper : String := "CASABLANCA"

/-- Role fragment filter written in upper case. -/
def roleFrag : String := "DEVEL"

/-- A stored posting with embedding `[1, 0]`. -/
def jobA : Job :=
  { id := 1, title := "Data Engineer", company := "Acme",
    location := "Casablanca, Morocco", searched_city := "Casablanca",
    searched_role := "developer", job_url := "https://example.com/a",
    date_posted := none, extracted_skills := [pySkill],
    embedding := some [1, 0] }

/-- A stored posting with embedding `[0, 1]`, orthogonal to `[1, 0]`. -/
def jobB : Job :=
  { id := 2, title := "Frontend Developer", company := "Beta",
    location := "Rabat", searched_city := "Rabat",
    searched_role := "developer", job_url := "https://example.com/b",
    date_posted := none, extracted_skills := ["React"],
    embedding := some [0, 1] }

/-- A stored posting with embedding `[3/5, 4/5]` (unit norm), whose cosine
similarity to `[1, 0]` is exactly `3/5`. -/
def jobC : Job :=
  { id := 3, title := "Backend Developer", company := "Gamma",
    location := "Casablanca", searched_city := "Casablanca",
    searched_role := "developer", job_url := "https://example.com/c",
    date_posted := none, extracted_skills := [pySkill],
    embedding := some [3/5, 4/5] }

/-- A stored posting whose embedding was never generated (`NULL`). -/
def jobNoEmb : Job :=
  { id := 4, title := "QA Analyst", company := "Delta",
    location := "Fes", searched_city := "Fes",
    searched_role := "qa", job_url := "https://example.com/d",
    date_posted := none, extracted_skills := [],
    embedding := none }

/-- A batch of 51 stored postings, all with embedding `[1]` (so all at
similarity 1 to the query `[1]`). -/
def manyJobs : List Job :=
  (List.range 51).map (fun i =>
    { id := Int.ofNat i, title := "Engineer", company := "Acme",
      location := "Casablanca", searched_city := "Casablanca",
      searched_role := "developer", job_url := "https://example.com/m",
      date_posted := none, extracted_skills := [pySkill],
      embedding := some [1] })

/-! Helper lemmas about the query pipeline. -/

/-- Membership in the similarity-annotated candidate rows. -/
lemma mem_simRows {dist : Vec → Vec → ℚ} {q : Vec} {jobs : List Job}
    {j : Job} {s : ℚ} :
    (j, s) ∈ simRows dist q jobs ↔
      j ∈ jobs ∧ ∃ e, j.embedding = some e ∧ s = 1 - dist e q := by
  simp only [simRows, List.mem_filterMap, Option.map_eq_some']
  constructor
  · rintro ⟨a, ha, e, he, h⟩
    obtain ⟨rfl, rfl⟩ := Prod.mk.injEq .. ▸ h
    exact ⟨ha, e, he, rfl⟩
  · rintro ⟨hj, e, he, rfl⟩
    exact ⟨j, hj, e, he, rfl⟩

/-- Rows surviving the sort are exactly the filtered rows. -/
lemma mem_sortBySim {l : List SimRow} {r : SimRow} :
    r ∈ sortBySim l ↔ r ∈ l := by
  simp [sortBySim, List.mem_insertionSort]

/-- The sort output is sorted by similarity descending. -/
lemma sorted_sortBySim (l : List SimRow) :
    List.Sorted simDesc (sortBySim l) :=
  List.sorted_insertionSort simDesc l

/-- Sorting preserves length. -/
lemma length_sortBySim (l : List SimRow) :
    (sortBySim l).length = l.length :=
  List.length_insertionSort simDesc l

/-- Any returned row of semantic search is a candidate row strictly above
the threshold. -/
lemma mem_search_jobs_semantic {dist : Vec → Vec → ℚ} {jobs : List Job}
    {q : Vec} {th : ℚ} {cnt : ℕ} {r : SimRow}
    (h : r ∈ search_jobs_semantic dist jobs q th cnt) :
    r ∈ simRows dist q jobs ∧ th < r.2 := by
  have h1 := List.mem_of_mem_take h
  rw [mem_sortBySim, List.mem_filter] at h1
  exact ⟨h1.1, by simpa using h1.2⟩

/-- Length of the semantic search result. -/
lemma length_search_jobs_semantic (dist : Vec → Vec → ℚ) (jobs : List Job)
    (q : Vec) (th : ℚ) (cnt : ℕ) :
    (search_jobs_semantic dist jobs q th cnt).length =
      min cnt ((simRows dist q jobs).filter
        (fun r => decide (th < r.2))).length := by
  rw [search_jobs_semantic, List.length_take, length_sortBySim]

/-- Semantic search output is sorted by similarity descending. -/
lemma sorted_search_jobs_semantic (dist : Vec → Vec → ℚ) (jobs : List Job)
    (q : Vec) (th : ℚ) (cnt : ℕ) :
    List.Sorted simDesc (search_jobs_semantic dist jobs q th cnt) :=
  (sorted_sortBySim _).sublist (List.take_sublist _ _)

/-- When the qualifying rows fit within the limit, each of them is
returned. -/
lemma search_jobs_semantic_complete {dist : Vec → Vec → ℚ} {jobs : List Job}
    {q : Vec} {th : ℚ} {cnt : ℕ}
    (hlen : ((simRows dist q jobs).filter
      (fun r => decide (th < r.2))).length ≤ cnt)
    {j : Job} {e : Vec} (hj : j ∈ jobs) (he : j.embedding = some e)
    (hth : th < 1 - dist e q) :
    (j, 1 - dist e q) ∈ search_jobs_semantic dist jobs q th cnt := by
  rw [search_jobs_semantic,
    List.take_of_length_le (by rwa [length_sortBySim]), mem_sortBySim,
    List.mem_filter]
  exact ⟨mem_simRows.mpr ⟨hj, e, he, rfl⟩, by simpa using hth⟩

/-- Any returned row of hybrid search is a candidate row strictly above the
threshold that passes all three optional filters. -/
lemma mem_search_jobs_hybrid {dist : Vec → Vec → ℚ} {jobs : List Job}
    {q : Vec} {th : ℚ} {cnt : ℕ} {fc fr fs : Option String} {r : SimRow}
    (h : r ∈ search_jobs_hybrid dist jobs q th cnt fc fr fs) :
    r ∈ simRows dist q jobs ∧ th < r.2 ∧ cityMatches fc r.1 = true ∧
      roleMatches fr r.1 = true ∧ skillMatches fs r.1 = true := by
  have h1 := List.mem_of_mem_take h
  rw [mem_sortBySim, List.mem_filter] at h1
  have h2 := h1.2
  simp only [Bool.and_eq_true, decide_eq_true_eq] at h2
  exact ⟨h1.1, h2.1.1.1, h2.1.1.2, h2.1.2, h2.2⟩

/-- Any returned row of the similar-jobs query passed its filter: its id
differs from the source id. -/
lemma mem_find_similar_jobs {dist : Vec → Vec → ℚ} {jobs : List Job}
    {sid : Int} {th : ℚ} {cnt : ℕ} {r : SimRow}
    (h : r ∈ find_similar_jobs dist jobs sid th cnt) :
    r.1.id ≠ sid ∧ th < r.2 := by
  rw [find_similar_jobs] at h
  rcases hm : (jobs.find? (fun j => j.id == sid && j.embedding.isSome)).bind
      (fun j => j.embedding) with _ | se
  · rw [hm] at h
    simp at h
  · rw [hm] at h
    have h1 := List.mem_of_mem_take h
    rw [mem_sortBySim, List.mem_filter] at h1
    have h2 := h1.2
    simp only [Bool.and_eq_true, bne_iff_ne, ne_eq, decide_eq_true_eq] at h2
    exact h2

/-- Substring decomposition of the head-occurrence test. -/
lemma segStarts_iff {pat s : List Char} :
    segStarts pat s = true ↔ ∃ v, s = pat ++ v := by
  induction pat generalizing s with
  | nil => simp [segStarts]
  | cons p ps ih =>
    cases s with
    | nil => simp [segStarts]
    | cons c cs =>
      simp only [segStarts, Bool.and_eq_true, beq_iff_eq, ih,
        List.cons_append, List.cons.injEq]
      constructor
      · rintro ⟨rfl, v, rfl⟩
        exact ⟨v, rfl, rfl⟩
      · rintro ⟨v, rfl, rfl⟩
        exact ⟨rfl, v, rfl⟩

/-- Substring decomposition of the occurrence test: `segOccurs pat s` holds
iff `pat` is a contiguous segment of `s`. -/
lemma segOccurs_iff {pat s : List Char} :
    segOccurs pat s = true ↔ ∃ u v, s = u ++ pat ++ v := by
  induction s with
  | nil =>
    simp only [segOccurs, List.isEmpty_iff]
    constructor
    · rintro rfl
      exact ⟨[], [], rfl⟩
    · rintro ⟨u, v, huv⟩
      have hlen := congrArg List.length huv
      simp only [List.length_nil, List.length_append] at hlen
      exact List.length_eq_zero.mp (by omega)
  | cons c cs ih =>
    simp only [segOccurs, Bool.or_eq_true, segStarts_iff, ih]
    constructor
    · rintro (⟨v, hv⟩ | ⟨u, v, huv⟩)
      · exact ⟨[], v, by simpa using hv⟩
      · exact ⟨c :: u, v, by simp [huv]⟩
    · rintro ⟨u, v, huv⟩
      cases u with
      | nil =>
        exact Or.inl ⟨v, by simpa using huv⟩
      | cons x xs =>
        simp only [List.cons_append, List.cons.injEq] at huv
        exact Or.inr ⟨xs, v, by simp [huv.2]⟩

/-- When every stored posting has the same (non-null) embedding, the
candidate rows are the postings paired with one shared similarity. -/
lemma simRows_of_const_emb (dist : Vec → Vec → ℚ) (q e : Vec)
    (jobs : List Job) (h : ∀ j ∈ jobs, j.embedding = some e) :
    simRows dist q jobs = jobs.map (fun j => (j, 1 - dist e q)) := by
  induction jobs with
  | nil => rfl
  | cons a l ih =>
    have ha := h a (List.mem_cons_self a l)
    rw [simRows, List.filterMap_cons, ha]
    simp only [Option.map_some']
    rw [List.map_cons]
    exact congrArg _ (ih (fun j hj => h j (List.mem_cons_of_mem a hj)))

/-- C7: hybrid search with all three filters NULL returns exactly the same
rows in the same order as semantic search with the same query embedding,
threshold and count. -/
theorem c7_hybrid_no_filters_eq_semantic (dist : Vec → Vec → ℚ)
    (jobs : List Job) (q : Vec) (th : ℚ) (cnt : ℕ) :
    search_jobs_hybrid dist jobs q th cnt none none none =
      search_jobs_semantic dist jobs q th cnt := by
  simp [search_jobs_hybrid, search_jobs_semantic, cityMatches, roleMatches,
    skillMatches]

/-- C4: the similar-jobs query never returns a row whose id is the source
posting's id. -/
theorem c4_similar_excludes_source (dist : Vec → Vec → ℚ) (jobs : List Job)
    (sid : Int) (th : ℚ) (cnt : ℕ) :
    (find_similar_jobs dist jobs sid th cnt).all
      (fun r => r.1.id != sid) = true := by
  rw [List.all_eq_true]
  intro r hr
  simpa using (mem_find_similar_jobs hr).1

/-- C5: when no stored posting has both the source id and a non-null
embedding — the id is unknown, or its embedding is NULL — the similar-jobs
query returns the empty result (it does not fail), for every limit and
threshold. -/
theorem c5_similar_missing_source_empty (dist : Vec → Vec → ℚ)
    (jobs : List Job) (sid : Int) (th : ℚ) (cnt : ℕ)
    (h : ∀ j ∈ jobs, j.id = sid → j.embedding = none) :
    find_similar_jobs dist jobs sid th cnt = [] := by
  have hf : jobs.find? (fun j => j.id == sid && j.embedding.isSome) = none := by
    rw [List.find?_eq_none]
    intro j hj
    simp only [Bool.and_eq_true, beq_iff_eq, not_and]
    intro hid
    rw [h j hj hid]
    simp
  unfold find_similar_jobs
  rw [hf]
  rfl

/-- Witness for C5: a store holding one posting whose embedding was never
generated; asking for jobs similar to it yields the empty result. -/
theorem c5_witness :
    find_similar_jobs unitCosDist [jobNoEmb] 4 (3/10) 5 = [] := by
  refine c5_similar_missing_source_empty unitCosDist [jobNoEmb] 4 (3/10) 5 ?_
  intro j hj _
  rw [List.mem_singleton] at hj
  rw [hj]
  rfl

/-- C8 (amended): the SQL search functions apply the caller-supplied
match_count directly as the LIMIT — the result count never exceeds the
supplied limit, but no implementation-side maximum is imposed. -/
theorem c8_limit_is_caller_supplied (dist : Vec → Vec → ℚ) (jobs : List Job)
    (q : Vec) (th : ℚ) (cnt : ℕ) (fc fr fs : Option String) (sid : Int) :
    (search_jobs_semantic dist jobs q th cnt).length ≤ cnt ∧
    (search_jobs_hybrid dist jobs q th cnt fc fr fs).length ≤ cnt ∧
    (find_similar_jobs dist jobs sid th cnt).length ≤ cnt := by
  refine ⟨?_, ?_, ?_⟩
  · rw [search_jobs_semantic]
    exact (List.length_take _ _).le.trans (min_le_left _ _)
  · rw [search_jobs_hybrid]
    exact (List.length_take _ _).le.trans (min_le_left _ _)
  · unfold find_similar_jobs
    split
    · simp
    · exact (List.length_take _ _).le.trans (min_le_left _ _)

/-- Counterexample for C8: with 51 matching postings stored and a
caller-supplied limit of 100, semantic search returns 51 rows — more than
the claimed maximum of 50.  No clamping happens in the SQL functions. -/
theorem c8_counterexample :
    50 < (search_jobs_semantic unitCosDist manyJobs [1] (3/10) 100).length := by
  have hemb : ∀ j ∈ manyJobs, j.embedding = some [1] := by
    intro j hj
    rw [manyJobs, List.mem_map] at hj
    obtain ⟨i, _, rfl⟩ := hj
    rfl
  have hrows := simRows_of_const_emb unitCosDist [1] [1] manyJobs hemb
  have hfilter :
      (simRows unitCosDist [1] manyJobs).filter
        (fun r => decide ((3/10 : ℚ) < r.2)) =
        simRows unitCosDist [1] manyJobs := by
    rw [List.filter_eq_self]
    intro r hr
    rw [hrows, List.mem_map] at hr
    obtain ⟨j, _, rfl⟩ := hr
    norm_num [unitCosDist, dotVec]
  have hlen : manyJobs.length = 51 := by
    rw [manyJobs, List.length_map, List.length_range]
  rw [length_search_jobs_semantic, hfilter, hrows, List.length_map, hlen]
  norm_num

/-- Counterexample for C1: the store holds one posting whose embedding
`[3/5, 4/5]` has cosine similarity exactly `3/5` to the query `[1, 0]`.
With threshold `3/5` (inside `[0,1]`) and limit 5 the claim says the posting
is included; the SQL `>` comparison excludes it, and the result is empty. -/
theorem c1_counterexample :
    search_jobs_semantic unitCosDist [jobC] [1, 0] (3/5) 5 = [] ∧
    jobC.embedding = some [3/5, 4/5] ∧
    1 - unitCosDist [3/5, 4/5] [1, 0] = 3/5 ∧
    (0 : ℚ) ≤ 3/5 ∧ (3/5 : ℚ) ≤ 1 := by
  refine ⟨?_, rfl, by norm_num [unitCosDist, dotVec], by norm_num, by norm_num⟩
  norm_num [search_jobs_semantic, simRows, sortBySim, jobC, unitCosDist,
    dotVec, List.filterMap, List.filter]

/-- C1 (amended): semantic search returns exactly the stored postings with
a non-null embedding whose similarity is STRICTLY above the threshold —
a posting whose similarity equals the threshold is excluded — sorted
descending by similarity and truncated to the limit: every returned row is
such a posting with similarity above the threshold, the count is at most
the limit, the rows are sorted descending, and when the qualifying rows fit
within the limit each of them is returned. -/
theorem c1_semantic_search_strict (dist : Vec → Vec → ℚ) (jobs : List Job)
    (q : Vec) (th : ℚ) (cnt : ℕ) (hth0 : 0 ≤ th) (hth1 : th ≤ 1) :
    (∀ r ∈ search_jobs_semantic dist jobs q th cnt,
      th < r.2 ∧ r.1 ∈ jobs ∧ ∃ e, r.1.embedding = some e ∧
        r.2 = 1 - dist e q) ∧
    (search_jobs_semantic dist jobs q th cnt).length ≤ cnt ∧
    List.Pairwise (fun a b : SimRow => b.2 ≤ a.2)
      (search_jobs_semantic dist jobs q th cnt) ∧
    (((simRows dist q jobs).filter (fun r => decide (th < r.2))).length ≤
        cnt →
      ∀ j ∈ jobs, ∀ e, j.embedding = some e → th < 1 - dist e q →
        (j, 1 - dist e q) ∈ search_jobs_semantic dist jobs q th cnt) := by
  refine ⟨?_, ?_, ?_, ?_⟩
  · rintro ⟨j, s⟩ hr
    have h := mem_search_jobs_semantic hr
    rw [mem_simRows] at h
    obtain ⟨⟨hj, e, he, hs⟩, hth⟩ := h
    exact ⟨hth, hj, e, he, hs⟩
  · rw [search_jobs_semantic]
    exact (List.length_take _ _).le.trans (min_le_left _ _)
  · exact sorted_search_jobs_semantic dist jobs q th cnt
  · intro hlen j hj e he hth
    exact search_jobs_semantic_complete hlen hj he hth

/-- Witness for C1 (amended): the strict-threshold contract applied at a
concrete store, query, threshold 1/2 and limit 5. -/
theorem c1_witness :
    (search_jobs_semantic unitCosDist [jobA] [1, 0] (1/2) 5).length ≤ 5 :=
  (c1_semantic_search_strict unitCosDist [jobA] [1, 0] (1/2) 5 (by norm_num)
    (by norm_num)).2.1

/-- A zero cosine distance for every pair: the distance profile of a store
whose embeddings all point along the query direction.  Nonnegative
everywhere, as cosine distance is. -/
def zeroDist : Vec → Vec → ℚ := fun _ _ => 0

/-- Counterexample for C6: the stored posting has a non-null embedding
(`[0, 1]`, orthogonal to the query `[1, 0]`, similarity 0).  The claim says
threshold 0 returns every posting with a non-null embedding up to the
limit; the SQL `> 0` comparison drops it and the result is empty. -/
theorem c6_counterexample :
    search_jobs_semantic unitCosDist [jobB] [1, 0] 0 10 = [] ∧
    jobB.embedding.isSome = true := by
  refine ⟨?_, rfl⟩
  norm_num [search_jobs_semantic, simRows, sortBySim, jobB, unitCosDist,
    dotVec, List.filterMap, List.filter]

/-- C6 (amended): with a nonnegative distance (true of cosine distance),
threshold 1 returns nothing — even an exact vector match has similarity
exactly 1, which is not `> 1`; threshold 0 returns exactly the postings
with strictly positive similarity (up to the limit): every returned row
has positive similarity, and when the qualifying rows fit within the limit
each posting with positive similarity is returned. -/
theorem c6_threshold_extremes (dist : Vec → Vec → ℚ) (jobs : List Job)
    (q : Vec) (cnt : ℕ) (hd : ∀ e, 0 ≤ dist e q) :
    search_jobs_semantic dist jobs q 1 cnt = [] ∧
    (∀ r ∈ search_jobs_semantic dist jobs q 0 cnt, 0 < r.2) ∧
    (((simRows dist q jobs).filter
        (fun r => decide ((0 : ℚ) < r.2))).length ≤ cnt →
      ∀ j ∈ jobs, ∀ e, j.embedding = some e → 0 < 1 - dist e q →
        (j, 1 - dist e q) ∈ search_jobs_semantic dist jobs q 0 cnt) := by
  refine ⟨?_, ?_, ?_⟩
  · have hnil : (simRows dist q jobs).filter
        (fun r => decide ((1 : ℚ) < r.2)) = [] := by
      rw [List.filter_eq_nil_iff]
      rintro ⟨j, s⟩ hr
      rw [mem_simRows] at hr
      obtain ⟨_, e, _, rfl⟩ := hr
      have := hd e
      simp only [decide_eq_true_eq, not_lt]
      linarith
    rw [search_jobs_semantic, hnil]
    simp [sortBySim]
  · intro r hr
    exact (mem_search_jobs_semantic hr).2
  · intro hlen j hj e he hpos
    exact search_jobs_semantic_complete hlen hj he hpos

/-- Witness for C6 (amended): with the all-along-the-query distance profile,
semantic search at threshold 1 over a concrete store returns nothing. -/
theorem c6_witness :
    search_jobs_semantic zeroDist [jobA] [1, 0] 1 5 = [] :=
  (c6_threshold_extremes zeroDist [jobA] [1, 0] 5
    (fun _ => le_refl 0)).1

/-- C2: every posting returned by hybrid search satisfies all supplied
filters conjunctively — its searched_city equals the city filter
case-insensitively, the role filter occurs as a case-insensitive substring
of its searched_role or of its title, and the skill filter is a member of
its extracted_skills set; a NULL filter is the constant-true test, imposing
no restriction on the candidate set. -/
theorem c2_hybrid_filters_conjunctive (dist : Vec → Vec → ℚ)
    (jobs : List Job) (q : Vec) (th : ℚ) (cnt : ℕ)
    (fc fr fs : Option String) :
    (∀ r ∈ search_jobs_hybrid dist jobs q th cnt fc fr fs,
      (∀ c, fc = some c → lowerStr r.1.searched_city = lowerStr c) ∧
      (∀ ro, fr = some ro →
        (∃ u v, (lowerStr r.1.searched_role).data =
          u ++ (lowerStr ro).data ++ v) ∨
        (∃ u v, (lowerStr r.1.title).data = u ++ (lowerStr ro).data ++ v)) ∧
      (∀ sk, fs = some sk → sk ∈ r.1.extracted_skills)) ∧
    (∀ j : Job, cityMatches none j = true ∧ roleMatches none j = true ∧
      skillMatches none j = true) := by
  constructor
  · intro r hr
    obtain ⟨-, -, hcity, hrole, hskill⟩ := mem_search_jobs_hybrid hr
    refine ⟨?_, ?_, ?_⟩
    · rintro c rfl
      rw [cityMatches] at hcity
      exact eq_of_beq hcity
    · rintro ro rfl
      rw [roleMatches] at hrole
      rcases Bool.or_eq_true .. ▸ hrole with h | h
      · exact Or.inl (segOccurs_iff.mp h)
      · exact Or.inr (segOccurs_iff.mp h)
    · rintro sk rfl
      rw [skillMatches] at hskill
      simpa using hskill
  · intro j
    exact ⟨rfl, rfl, rfl⟩

/-- Witness for C2: a concrete hybrid query with all three filters supplied
(city in a different letter case, a role fragment, a skill) returns the
matching posting, and the filter guarantees hold for it. -/
theorem c2_witness :
    lowerStr jobA.searched_city = lowerStr cityUpper ∧
    pySkill ∈ jobA.extracted_skills := by
  have hc : cityMatches (some cityUpper) jobA = true := by decide
  have hro : roleMatches (some roleFrag) jobA = true := by decide
  have hs : skillMatches (some pySkill) jobA = true := by decide
  have hemb : jobA.embedding = some [1, 0] := rfl
  have hm : (jobA, 1) ∈ search_jobs_hybrid unitCosDist [jobA] [1, 0] 0 5
      (some cityUpper) (some roleFrag) (some pySkill) := by
    have heval : search_jobs_hybrid unitCosDist [jobA] [1, 0] 0 5
        (some cityUpper) (some roleFrag) (some pySkill) = [(jobA, 1)] := by
      norm_num [search_jobs_hybrid, simRows, sortBySim, unitCosDist, dotVec,
        List.filterMap, List.filter, hc, hro, hs, hemb, List.insertionSort]
    rw [heval]
    exact List.mem_singleton.mpr rfl
  have h := (c2_hybrid_filters_conjunctive unitCosDist [jobA] [1, 0] 0 5
    (some cityUpper) (some roleFrag) (some pySkill)).1 (jobA, 1) hm
  exact ⟨h.1 cityUpper rfl, h.2.2 pySkill rfl⟩

/-- C3: upserting one incoming record into a store with pairwise-distinct
identity keys leaves the keys pairwise distinct — a key collision refreshes
the existing row in place, a fresh key appends; either way no two stored
postings ever share an identity key, which is what the unique constraint
`jobs_title_company_city_unique` enforces. -/
theorem c3_upsert_preserves_unique_keys (jobs : List Job) (incoming : Job)
    (h : NoDupKeys jobs) : NoDupKeys (upsert jobs incoming) := by
  unfold upsert
  by_cases hc : jobs.any (fun j => identKey j == identKey incoming) = true
  · rw [if_pos hc]
    unfold NoDupKeys at h ⊢
    have hmap : (jobs.map (fun j =>
        if identKey j == identKey incoming then
          { incoming with id := j.id } else j)).map identKey =
        jobs.map identKey := by
      rw [List.map_map]
      apply List.map_congr_left
      intro j _
      by_cases hk : (identKey j == identKey incoming) = true
      · have hkey : identKey j = identKey incoming := eq_of_beq hk
        simp only [Function.comp_apply, hk, if_true]
        rw [hkey]
        rfl
      · simp only [Function.comp_apply, hk]
        rw [if_neg (by simp [hk])]
    rw [hmap]
    exact h
  · rw [if_neg hc]
    unfold NoDupKeys at h ⊢
    rw [List.map_append, List.map_singleton]
    refine List.Nodup.append h (List.nodup_singleton _) ?_
    intro a ha hb
    rw [List.mem_singleton] at hb
    subst hb
    rw [List.mem_map] at ha
    obtain ⟨j, hj, hkey⟩ := ha
    rw [Bool.not_eq_true, List.any_eq_false] at hc
    exact absurd (beq_iff_eq.mpr hkey) (hc j hj)

/-- Witness for C3: upserting a fresh record into a singleton store keeps
the identity keys pairwise distinct. -/
theorem c3_witness : NoDupKeys (upsert [jobA] jobC) :=
  c3_upsert_preserves_unique_keys [jobA] jobC
    (by simp [NoDupKeys])

/-- C9: the forecaster returns the explicit insufficient-data result on a
monthly series with fewer than 2 months; otherwise it classifies the OLS
slope by the fixed bands (growing strong/moderate, stable, declining
moderate/strong); the 3-month series [20, 34, 60] has slope 20 > 0 and is
classified growing (strong), and [60, 34, 20] has slope -20 and is
classified declining (strong). -/
theorem c9_forecast_classification :
    (∀ ys : List ℚ, ys.length < 2 →
      forecastSkill ys = ForecastResult.insufficientData) ∧
    (∀ s : ℚ, 5 < s → classifySlope s = TrendClass.growingStrong) ∧
    (∀ s : ℚ, 1 < s → s ≤ 5 → classifySlope s = TrendClass.growingModerate) ∧
    (∀ s : ℚ, -1 ≤ s → s ≤ 1 → classifySlope s = TrendClass.stable) ∧
    (∀ s : ℚ, -5 ≤ s → s < -1 →
      classifySlope s = TrendClass.decliningModerate) ∧
    (∀ s : ℚ, s < -5 → classifySlope s = TrendClass.decliningStrong) ∧
    (0 < olsSlope [20, 34, 60] ∧
      forecastSkill [20, 34, 60] =
        ForecastResult.trend 20 TrendClass.growingStrong) ∧
    forecastSkill [60, 34, 20] =
      ForecastResult.trend (-20) TrendClass.decliningStrong := by
  have hslope1 : olsSlope [20, 34, 60] = 20 := by
    norm_num [olsSlope, List.range_succ]
  have hslope2 : olsSlope [60, 34, 20] = -20 := by
    norm_num [olsSlope, List.range_succ]
  refine ⟨?_, ?_, ?_, ?_, ?_, ?_, ⟨?_, ?_⟩, ?_⟩
  · intro ys hlen
    rw [forecastSkill, if_pos hlen]
  · intro s hs
    rw [classifySlope, if_pos hs]
  · intro s hs1 hs2
    rw [classifySlope, if_neg (by linarith), if_pos hs1]
  · intro s hs1 hs2
    rw [classifySlope, if_neg (by linarith), if_neg (by linarith),
      if_pos hs1]
  · intro s hs1 hs2
    rw [classifySlope, if_neg (by linarith), if_neg (by linarith),
      if_neg (by linarith), if_pos hs1]
  · intro s hs
    rw [classifySlope, if_neg (by linarith), if_neg (by linarith),
      if_neg (by linarith), if_neg (by linarith)]
  · rw [hslope1]
    norm_num
  · rw [forecastSkill, if_neg (by norm_num), hslope1]
    rw [classifySlope, if_pos (by norm_num)]
  · rw [forecastSkill, if_neg (by norm_num), hslope2]
    rw [classifySlope, if_neg (by norm_num), if_neg (by norm_num),
      if_neg (by norm_num), if_neg (by norm_num)]

/-- Witness for C9: a single-month series yields the insufficient-data
result, and a slope of 6 is classified growing strong. -/
theorem c9_witness :
    forecastSkill [(7 : ℚ)] = ForecastResult.insufficientData ∧
    classifySlope 6 = TrendClass.growingStrong :=
  ⟨c9_forecast_classification.1 [(7 : ℚ)] (by norm_num),
    c9_forecast_classification.2.1 6 (by norm_num)⟩

/-- C10: the hybrid-search skill filter is exact, case-sensitive membership
in extracted_skills — in general it succeeds exactly when the filter string
is verbatim in the array, and concretely the filter "python" misses the
posting tagged "Python" while "Python" hits it — whereas the city and role
filters of the same function match case-insensitively (upper-case filters
hit the lower-case posting). -/
theorem c10_skill_filter_case_sensitive :
    (∀ (j : Job) (sk : String),
      skillMatches (some sk) j = true ↔ sk ∈ j.extracted_skills) ∧
    search_jobs_hybrid unitCosDist [jobA] [1, 0] 0 10 none none
      (some pySkillLower) = [] ∧
    search_jobs_hybrid unitCosDist [jobA] [1, 0] 0 10 none none
      (some pySkill) = [(jobA, 1)] ∧
    search_jobs_hybrid unitCosDist [jobA] [1, 0] 0 10 (some cityUpper) none
      none = [(jobA, 1)] ∧
    search_jobs_hybrid unitCosDist [jobA] [1, 0] 0 10 none (some roleFrag)
      none = [(jobA, 1)] := by
  have hemb : jobA.embedding = some [1, 0] := rfl
  have hsLow : skillMatches (some pySkillLower) jobA = false := by decide
  have hs : skillMatches (some pySkill) jobA = true := by decide
  have hc : cityMatches (some cityUpper) jobA = true := by decide
  have hro : roleMatches (some roleFrag) jobA = true := by decide
  refine ⟨?_, ?_, ?_, ?_, ?_⟩
  · intro j sk
    rw [skillMatches]
    exact List.elem_iff
  · norm_num [search_jobs_hybrid, simRows, sortBySim, unitCosDist, dotVec,
      List.filterMap, List.filter, hemb, hsLow, cityMatches, roleMatches]
  · norm_num [search_jobs_hybrid, simRows, sortBySim, unitCosDist, dotVec,
      List.filterMap, List.filter, hemb, hs, cityMatches, roleMatches,
      List.insertionSort]
  · norm_num [search_jobs_hybrid, simRows, sortBySim, unitCosDist, dotVec,
      List.filterMap, List.filter, hemb, hc, roleMatches, skillMatches,
      List.insertionSort]
  · norm_num [search_jobs_hybrid, simRows, sortBySim, unitCosDist, dotVec,
      List.filterMap, List.filter, hemb, hro, cityMatches, skillMatches,
      List.insertionSort]
